import Mathlib

/-!
# Verification of the tmuxg session materializer

A shallow embedding of `src/main.go` (with the two historical variants kept in
`src/unnamed/part_000`).  The program decodes a YAML session specification and
issues a fixed sequence of external commands (`tmux ...`, the setup script) to
materialize the described multiplexer session.  We embed the post-decode data
model, Go's `os.Expand`/`os.ExpandEnv` variable expansion, `strings.TrimSpace`,
the environment-commit loop, config-file resolution (`locateSession`), the
setup-script runner's file lifecycle, and the command trace emitted by `run`
on the path where every external invocation succeeds.
-/

set_option autoImplicit false

namespace Tmuxg

/-- Window specification (`window` struct in main.go): `name`, `command`,
`cwd`, `keystrokes`. -/
structure Window where
  name : String
  command : String
  cwd : String
  keystrokes : List String
deriving Repr, DecidableEq, Inhabited

/-- Session specification (`session` struct in main.go): `name`,
`setup-script`, `environment`, `cwd`, `windows`, `focus`.  The Go
`map[string]string` environment is modelled as an association list giving one
iteration order; Go map keys are unique, which appears as a `Nodup` hypothesis
where it matters. -/
structure Session where
  name : String
  setupScript : String
  environment : List (String × String)
  cwd : String
  windows : List Window
  focus : String
deriving Repr, DecidableEq, Inhabited

/-- The process environment block, as mutated by `os.Setenv` and read by
`os.Getenv`: an association list, first binding wins. -/
def Env : Type := List (String × String)

/-- `os.Getenv`-style lookup: first binding for the key, if any. -/
def lookupEnv : Env → String → Option String
  | [], _ => none
  | (k0, v0) :: rest, k => if k0 = k then some v0 else lookupEnv rest k

/-- `os.Setenv`: overwrite the existing binding for the key, or append a new
one. -/
def setEnvVar : Env → String → String → Env
  | [], k, v => [(k, v)]
  | (k0, v0) :: rest, k, v =>
      if k0 = k then (k, v) :: rest else (k0, v0) :: setEnvVar rest k v

/-! ## Go `os.Expand` / `os.ExpandEnv`

Faithful port of Go's `os.Expand(s, os.Getenv)` over the character list of the
string.  `os.Getenv` returns the empty string for an unset variable. -/

/-- Go `os.isShellSpecialVar`: `*`, `#`, `$`, `@`, `!`, `?`, `-`, `0`-`9`. -/
def isShellSpecialVar (c : Char) : Bool :=
  c = '*' || c = '#' || c = '$' || c = '@' || c = '!' || c = '?' || c = '-' ||
    ('0' ≤ c && c ≤ '9')

/-- Go `os.isAlphaNum`: `_`, `0`-`9`, `a`-`z`, `A`-`Z`. -/
def isAlphaNum (c : Char) : Bool :=
  c = '_' || ('0' ≤ c && c ≤ '9') || ('a' ≤ c && c ≤ 'z') || ('A' ≤ c && c ≤ 'Z')

/-- Characters of `rest` strictly before its first `}`; `none` when `rest` has
no closing brace (the scan in Go `getShellName`'s `${` case). -/
def spanUntilBrace : List Char → Option (List Char)
  | [] => none
  | c :: rest => if c = '}' then some [] else (spanUntilBrace rest).map (c :: ·)

/-- Go `os.getShellName` on the text following a `$`: returns the variable
name and the number of characters consumed.  The source's fast path for
`${X}` with `X` a special variable returns the same value the brace scan
does, so both are covered by the brace scan here; the bad-syntax returns
(`("", 2)` for `${}`, `("", 1)` for an unterminated `${`) are reproduced
exactly. -/
def getShellName : List Char → List Char × Nat
  | [] => ([], 0)
  | c :: rest =>
      if c = '{' then
        match spanUntilBrace rest with
        | some [] => ([], 2)
        | some nm => (nm, nm.length + 2)
        | none => ([], 1)
      else if isShellSpecialVar c then ([c], 1)
      else
        let nm := (c :: rest).takeWhile isAlphaNum
        (nm, nm.length)

/-- The `mapping` of `os.ExpandEnv`, i.e. `os.Getenv`: an unset variable maps
to the empty string. -/
def getenvChars (env : Env) (name : List Char) : List Char :=
  match lookupEnv env (String.mk name) with
  | some v => v.data
  | none => []

/-- The scanning loop of Go `os.Expand` over a character list.  A `$` at the
very end of the string is copied verbatim in Go because the lookahead guard
`j+1 < len(s)` fails; here `getShellName [] = ([], 0)` lands in the
keep-the-dollar branch, producing the same output. -/
def expandLoop (env : Env) : List Char → List Char
  | [] => []
  | c :: rest =>
      if c = '$' then
        let p := getShellName rest
        if p.1 = [] && p.2 > 0 then expandLoop env (rest.drop p.2)
        else if p.1 = [] then '$' :: expandLoop env rest
        else getenvChars env p.1 ++ expandLoop env (rest.drop p.2)
      else c :: expandLoop env rest
termination_by l => l.length
decreasing_by
  all_goals simp [List.length_drop]
  all_goals omega

/-- Go `os.ExpandEnv` against a modelled process environment. -/
def expandEnv (env : Env) (s : String) : String :=
  String.mk (expandLoop env s.data)

/-! ## Go `strings.TrimSpace` -/

/-- Go `unicode.IsSpace`: the Unicode White_Space property
(U+0009–U+000D, U+0020, U+0085, U+00A0, U+1680, U+2000–U+200A, U+2028,
U+2029, U+202F, U+205F, U+3000). -/
def goIsSpace (c : Char) : Bool :=
  (0x9 ≤ c.toNat && c.toNat ≤ 0xd) || c.toNat = 0x20 || c.toNat = 0x85 ||
  c.toNat = 0xa0 || c.toNat = 0x1680 ||
  (0x2000 ≤ c.toNat && c.toNat ≤ 0x200a) || c.toNat = 0x2028 ||
  c.toNat = 0x2029 || c.toNat = 0x202f || c.toNat = 0x205f || c.toNat = 0x3000

/-- Go `strings.TrimSpace`: strip leading and trailing white space. -/
def goTrimSpace (s : String) : String :=
  String.mk (((s.data.dropWhile goIsSpace).reverse.dropWhile goIsSpace).reverse)

/-! ## The materialization trace

`run` in main.go performs, in order: the `os.Setenv` commit loop over
`environment`, `session.setupScript()`, `session.create()` (which issues
`new-session` and then one `set-environment` per entry), the window loop
(`new-window` for every index `i > 0`, `send-keys` for every window with
keystrokes, and the focus-index fold), `session.focus(...)`, and
`tmux attach`.  We record the observable side effects as a list of events;
external invocations are assumed to succeed (the trace of the success path),
while the internal no-windows check is modelled as the error it is. -/

/-- One observable side effect of `run`: an `os.Setenv` call, the spawn of the
setup-script subprocess (with the content written to the temporary file), or a
`tmux` child process.  For a `tmux` event the recorded list is the argument
list passed to `session.tmux`; the actual argv additionally carries the
`-L <sessionName>` socket prefix, identical for every invocation. -/
inductive Event where
  | setenv (k v : String)
  | spawnScript (content : String)
  | tmux (args : List String)
deriving Repr, DecidableEq

/-- `true` iff the event is a `tmux` invocation whose first argument is `c`. -/
def isCmd (c : String) : Event → Bool
  | .tmux (a :: _) => a = c
  | _ => false

/-- The environment-commit loop of `run`:
`for k, v := range session.Environment { os.Setenv(k, os.ExpandEnv(v)) }`.
Each value is expanded against the environment as it stands when that entry is
committed; returns the final environment and the `setenv` events in order. -/
def commitEnv : Env → List (String × String) → Env × List Event
  | env, [] => (env, [])
  | env, (k, v) :: rest =>
      let ev := expandEnv env v
      let r := commitEnv (setEnvVar env k ev) rest
      (r.1, Event.setenv k ev :: r.2)

/-- The error text of `session.create` on an empty window list. -/
def noWindowsMsg : String := "no windows configured for this session!"

/-- `fmt.Sprintf("%s:%d", s.Name, i)`: the positional addressing syntax. -/
def windowTarget (s : Session) (i : Nat) : String :=
  s.name ++ ":" ++ toString i

/-- Argument list of the `new-window` invocation in `session.createWindow`:
the window's `cwd` (session default when empty) and `command`, both expanded,
targeted at `<sessionName>:<i>`. -/
def createWindowArgs (s : Session) (env : Env) (i : Nat) (w : Window) : List String :=
  let cwd := if w.cwd = "" then s.cwd else w.cwd
  ["new-window", "-d", "-t", windowTarget s i, "-c", expandEnv env cwd,
   expandEnv env w.command]

/-- Events of `session.sendKeys`: one `send-keys` invocation passing the
keystroke tokens verbatim when the list is non-empty, nothing otherwise. -/
def sendKeysEvents (w : Window) : List Event :=
  if w.keystrokes = [] then [] else [Event.tmux ("send-keys" :: w.keystrokes)]

/-- `session.create`: fails with `noWindowsMsg` on an empty window list;
otherwise issues `new-session` running window 0's expanded command, then one
`set-environment` per `environment` entry (expanded against the post-commit
environment, with no target argument — main.go passes only the key and
value). -/
def create (s : Session) (env : Env) : Except String (List Event) :=
  match s.windows with
  | [] => .error noWindowsMsg
  | w0 :: _ =>
      .ok (Event.tmux ["new-session", "-d", "-s", s.name, expandEnv env w0.command]
        :: s.environment.map (fun kv => Event.tmux ["set-environment", kv.1, expandEnv env kv.2]))

/-- The window loop of `run`, started at index 0: `createWindow` for every
index `i > 0`, then `sendKeys` for every window. -/
def windowLoop (s : Session) (env : Env) : Nat → List Window → List Event
  | _, [] => []
  | i, w :: ws =>
      (if i > 0 then [Event.tmux (createWindowArgs s env i w)] else [])
        ++ sendKeysEvents w ++ windowLoop s env (i + 1) ws

/-- The focus fold of `run`'s window loop: starting from accumulator `acc`
(initially 0) at index `i` (initially 0), record the index of every window
whose name equals `focus`; the last match wins. -/
def computeFocusAux (fname : String) : Nat → Nat → List Window → Nat
  | _, acc, [] => acc
  | i, acc, w :: ws =>
      computeFocusAux fname (i + 1) (if fname = w.name then i else acc) ws

/-- The window index `session.focus` is called with: the last window whose
name equals `focus`, or 0 when none matches. -/
def computeFocus (s : Session) : Nat :=
  computeFocusAux s.focus 0 0 s.windows

/-- Events of `session.setupScript` as seen from `run` when every file
operation and the script itself succeed: nothing for an empty script, one
subprocess spawn (of the trimmed content) otherwise. -/
def setupEvents (s : Session) : List Event :=
  if s.setupScript = "" then [] else [Event.spawnScript (goTrimSpace s.setupScript)]

/-- The observable trace of `run` (after config loading) on the path where
every external invocation succeeds, paired with the internal error: the
environment commit, the setup script, `create`, the window loop,
`select-window` at the computed focus index, and `attach`.  When the window
list is empty, `create` fails and `run` returns its error after the commit
and setup-script effects. -/
def runModel (s : Session) (env0 : Env) : List Event × Option String :=
  let c := commitEnv env0 s.environment
  match create s c.1 with
  | .error e => (c.2 ++ setupEvents s, some e)
  | .ok createEvts =>
      (c.2 ++ setupEvents s ++ createEvts ++ windowLoop s c.1 0 s.windows
        ++ [Event.tmux ["select-window", "-t", windowTarget s (computeFocus s)],
            Event.tmux ["attach", "-t", s.name]], none)

/-! ## The setup-script runner's file lifecycle

`session.setupScript` creates a temporary file, registers `os.Remove(f.Name())`
and `f.Close()` as deferred calls (run in reverse order on every return), writes
the trimmed script, closes, chmods to 0700, and runs the file.  We model the
fallible steps with explicit success flags and record the file-system and
process events in order. -/

/-- One step of the setup-script runner's interaction with the file system and
the subprocess. -/
inductive FsEvent where
  | createTemp
  | write (content : String)
  | closeFile
  | chmod
  | runProc
  | removeTemp
deriving Repr, DecidableEq

/-- `session.setupScript` for a given outcome of each fallible step: `tempOk`
(temporary-file creation), `writeOk` (the `Fprintf`), `chmodOk`, and `runOk`
(the script's exit status).  Returns the events in execution order and the
error, if any.  The deferred `f.Close()` and `os.Remove` run, in that order, on
every return after the temporary file was created; the explicit `f.Close()` on
the success path is assumed to succeed. -/
def setupScriptRun (script : String) (tempOk writeOk chmodOk runOk : Bool) :
    List FsEvent × Option String :=
  if script = "" then ([], none)
  else if !tempOk then ([], some "failed to create temporary file for script")
  else
    let finish (evts : List FsEvent) (res : Option String) :
        List FsEvent × Option String :=
      (FsEvent.createTemp :: evts ++ [FsEvent.closeFile, FsEvent.removeTemp], res)
    if !writeOk then finish [] (some "failed to write temporary script file")
    else if !chmodOk then
      finish [FsEvent.write (goTrimSpace script), FsEvent.closeFile]
        (some "error setting temporary script executable")
    else
      finish [FsEvent.write (goTrimSpace script), FsEvent.closeFile,
              FsEvent.chmod, FsEvent.runProc]
        (if runOk then none else some "setup script exited with an error")

/-- Whether the temporary file exists after the recorded events have run:
created by `createTemp`, destroyed by `removeTemp`. -/
def tempFileExists (evts : List FsEvent) : Bool :=
  evts.foldl
    (fun b e =>
      match e with
      | FsEvent.createTemp => true
      | FsEvent.removeTemp => false
      | _ => b)
    false

/-! ## Config-file resolution

`locateSession` in both variants, over an abstract view of the file system
(`stat`).  main.go returns the argument whenever `os.Stat` succeeds — with no
regular-file check — while the part_000 variant additionally requires
`!info.IsDir()`.  `filepath.Join` is modelled for clean components. -/

/-- Result of `os.Stat` on a path: an existing entry (directory or not), a
does-not-exist error, or some other stat error. -/
inductive StatRes where
  | found (isDir : Bool)
  | notExist
  | statErr
deriving Repr, DecidableEq

/-- An abstract file system: what `os.Stat` answers on each path. -/
structure Fs where
  stat : String → StatRes

/-- Errors of `locateSession`. -/
inductive LocateErr where
  | statFailed
  | mkdirFailed
  | notFound
deriving Repr, DecidableEq

/-- `filepath.Join` for clean, non-root components. -/
def joinPath (a b : String) : String :=
  if a = "" then b else a ++ "/" ++ b

/-- The configuration path both variants resolve a bare name to:
`$XDG_CONFIG_HOME/tmuxg/<name>.yaml`, with `$HOME/.config` replacing an empty
`$XDG_CONFIG_HOME`. -/
def configPath (xdg home name : String) : String :=
  let configDir := if xdg = "" then joinPath home ".config" else xdg
  joinPath (joinPath configDir "tmuxg") (name ++ ".yaml")

/-- The shared fallback of both `locateSession` variants once the argument
itself was not accepted: create the config directory (`mkdirOk` models
`os.MkdirAll`) and stat `<configDir>/tmuxg/<name>.yaml`. -/
def locateInConfigDir (fs : Fs) (xdg home : String) (mkdirOk : Bool)
    (name : String) : Except LocateErr String :=
  if !mkdirOk then .error .mkdirFailed
  else
    match fs.stat (configPath xdg home name) with
    | .found _ => .ok (configPath xdg home name)
    | _ => .error .notFound

/-- `locateSession` of src/main.go: any path on which `os.Stat` succeeds —
directory or not — is returned as-is; a stat error other than not-exist is
fatal; otherwise fall back to the config directory. -/
def locateSessionMain (fs : Fs) (xdg home : String) (mkdirOk : Bool)
    (name : String) : Except LocateErr String :=
  match fs.stat name with
  | .found _ => .ok name
  | .statErr => .error .statFailed
  | .notExist => locateInConfigDir fs xdg home mkdirOk name

/-- `locateSession` of the part_000 variant: the argument is returned as-is
only when `os.Stat` succeeds and the entry is not a directory; a directory
falls through to the config-directory lookup. -/
def locateSessionPart (fs : Fs) (xdg home : String) (mkdirOk : Bool)
    (name : String) : Except LocateErr String :=
  match fs.stat name with
  | .found false => .ok name
  | .found true => locateInConfigDir fs xdg home mkdirOk name
  | .statErr => .error .statFailed
  | .notExist => locateInConfigDir fs xdg home mkdirOk name

/-! ## Post-decode defaulting

`newSession` in src/main.go reads and unmarshals the document and returns the
struct unchanged; the part_000 variant additionally walks `s.Windows` and
replaces every empty `Command` with `"bash"`. -/

/-- `newSession` of src/main.go after unmarshalling: the decoded session is
used as-is, no defaults are filled. -/
def newSessionMain (s : Session) : Session := s

/-- The defaulting loop of part_000's `newSession`:
`for i := range s.Windows { if s.Windows[i].Command == "" { ... = "bash" } }`. -/
def fillDefaults (ws : List Window) : List Window :=
  ws.map (fun w => if w.command = "" then { w with command := "bash" } else w)

/-- `newSession` of the part_000 variant after unmarshalling. -/
def newSessionPart (s : Session) : Session :=
  { s with windows := fillDefaults s.windows }

/-! ## Supporting lemmas -/

theorem lookupEnv_setEnvVar_self (env : Env) (k v : String) :
    lookupEnv (setEnvVar env k v) k = some v := by
  induction env with
  | nil => simp [setEnvVar, lookupEnv]
  | cons kv rest ih =>
      obtain ⟨k0, v0⟩ := kv
      by_cases h : k0 = k
      · simp [setEnvVar, h, lookupEnv]
      · simp [setEnvVar, h, lookupEnv, ih]

theorem lookupEnv_setEnvVar_ne (env : Env) (k' v k : String) (h : k' ≠ k) :
    lookupEnv (setEnvVar env k' v) k = lookupEnv env k := by
  induction env with
  | nil => simp [setEnvVar, lookupEnv, h]
  | cons kv rest ih =>
      obtain ⟨k0, v0⟩ := kv
      by_cases h0 : k0 = k'
      · subst h0
        simp [setEnvVar, lookupEnv, h]
      · simp [setEnvVar, h0, lookupEnv, ih]

theorem commitEnv_fst_cons (env : Env) (k v : String) (rest : List (String × String)) :
    (commitEnv env ((k, v) :: rest)).1 =
      (commitEnv (setEnvVar env k (expandEnv env v)) rest).1 := by
  simp [commitEnv]

theorem lookupEnv_commitEnv_not_mem (entries : List (String × String)) :
    ∀ (env : Env) (k : String), k ∉ entries.map Prod.fst →
      lookupEnv (commitEnv env entries).1 k = lookupEnv env k := by
  induction entries with
  | nil => intro env k _; simp [commitEnv]
  | cons kv rest ih =>
      intro env k hk
      obtain ⟨k0, v0⟩ := kv
      simp only [List.map_cons, List.mem_cons] at hk
      push_neg at hk
      rw [commitEnv_fst_cons, ih _ k hk.2]
      exact lookupEnv_setEnvVar_ne env k0 (expandEnv env v0) k (Ne.symm hk.1)

theorem commitEnv_snd_setenv (entries : List (String × String)) :
    ∀ (env : Env) (e : Event), e ∈ (commitEnv env entries).2 →
      ∃ k v, e = Event.setenv k v := by
  induction entries with
  | nil => intro env e h; simp [commitEnv] at h
  | cons kv rest ih =>
      intro env e h
      obtain ⟨k0, v0⟩ := kv
      simp only [commitEnv, List.mem_cons] at h
      rcases h with h | h
      · exact ⟨k0, expandEnv env v0, h⟩
      · exact ih _ e h

theorem commitEnv_snd_get (entries : List (String × String)) :
    ∀ (env0 : Env) (p : Nat) (hp : p < entries.length),
      (commitEnv env0 entries).2[p]? =
        some (Event.setenv (entries.get ⟨p, hp⟩).1
          (expandEnv (commitEnv env0 (entries.take p)).1 (entries.get ⟨p, hp⟩).2)) := by
  induction entries with
  | nil => intro env0 p hp; simp at hp
  | cons kv rest ih =>
      intro env0 p hp
      obtain ⟨k, v⟩ := kv
      cases p with
      | zero => simp [commitEnv]
      | succ p =>
          have hp' : p < rest.length := by simpa using hp
          simp only [commitEnv, List.getElem?_cons_succ, List.take_succ_cons,
            List.get_cons_succ]
          exact ih (setEnvVar env0 k (expandEnv env0 v)) p hp'

theorem commitEnv_lookup_get (entries : List (String × String)) :
    ∀ (env0 : Env) (p : Nat) (hp : p < entries.length),
      (entries.map Prod.fst).Nodup →
      lookupEnv (commitEnv env0 entries).1 (entries.get ⟨p, hp⟩).1 =
        some (expandEnv (commitEnv env0 (entries.take p)).1 (entries.get ⟨p, hp⟩).2) := by
  induction entries with
  | nil => intro env0 p hp; simp at hp
  | cons kv rest ih =>
      intro env0 p hp hnd
      obtain ⟨k, v⟩ := kv
      simp only [List.map_cons, List.nodup_cons] at hnd
      cases p with
      | zero =>
          have hget : ((k, v) :: rest).get ⟨0, hp⟩ = (k, v) := rfl
          rw [hget, List.take_zero, commitEnv_fst_cons,
            lookupEnv_commitEnv_not_mem rest _ k hnd.1,
            lookupEnv_setEnvVar_self]
          simp [commitEnv]
      | succ p =>
          have hp' : p < rest.length := by simpa using hp
          simp only [List.take_succ_cons, List.get_cons_succ]
          rw [commitEnv_fst_cons, commitEnv_fst_cons]
          exact ih (setEnvVar env0 k (expandEnv env0 v)) p hp' hnd.2

/-! ## C5: environment entries are expanded at commit time -/

/-- C5: the commit loop `os.Setenv(k, os.ExpandEnv(v))` expands each
`environment` entry's value against the process environment as it stands at
the moment that entry is committed (the environment produced by the earlier
entries), writes the expanded result into the process environment, and every
subsequent expansion — e.g. of window 0's `command` in `new-session` — reads
the substituted value, not the literal document text. -/
theorem environment_commit_expansion (env0 : Env) (entries : List (String × String))
    (p : Nat) (hp : p < entries.length) (hnd : (entries.map Prod.fst).Nodup) :
    (commitEnv env0 entries).2[p]? =
      some (Event.setenv (entries.get ⟨p, hp⟩).1
        (expandEnv (commitEnv env0 (entries.take p)).1 (entries.get ⟨p, hp⟩).2)) ∧
    lookupEnv (commitEnv env0 entries).1 (entries.get ⟨p, hp⟩).1 =
      some (expandEnv (commitEnv env0 (entries.take p)).1 (entries.get ⟨p, hp⟩).2) ∧
    (∀ (s : Session) (w0 : Window) (rest : List Window),
      s.environment = entries → s.windows = w0 :: rest →
      Event.tmux ["new-session", "-d", "-s", s.name,
        expandEnv (commitEnv env0 entries).1 w0.command] ∈ (runModel s env0).1) := by
  refine ⟨commitEnv_snd_get entries env0 p hp,
    commitEnv_lookup_get entries env0 p hp hnd, ?_⟩
  intro s w0 rest henv hwin
  subst henv
  simp only [runModel, create, hwin]
  simp [List.mem_append]

/-- Witness for `environment_commit_expansion`: committing
`PATH=/bin, GOPATH=$PATH/go` makes `GOPATH` expand to `/bin/go`, and the
session's `new-session` command `$GOPATH` materializes as `/bin/go`. -/
theorem environment_commit_expansion_witness :
    (commitEnv [] [("PATH", "/bin"), ("GOPATH", "$PATH/go")]).2[1]? =
      some (Event.setenv "GOPATH"
        (expandEnv (commitEnv [] [("PATH", "/bin")]).1 "$PATH/go")) ∧
    lookupEnv (commitEnv [] [("PATH", "/bin"), ("GOPATH", "$PATH/go")]).1 "GOPATH" =
      some (expandEnv (commitEnv [] [("PATH", "/bin")]).1 "$PATH/go") := by
  have h := environment_commit_expansion [] [("PATH", "/bin"), ("GOPATH", "$PATH/go")]
    1 (by decide) (by decide)
  exact ⟨h.1, h.2.1⟩

theorem computeFocusAux_no_match (fname : String) :
    ∀ (ws : List Window) (i acc : Nat), (∀ w ∈ ws, fname ≠ w.name) →
      computeFocusAux fname i acc ws = acc := by
  intro ws
  induction ws with
  | nil => intro i acc _; rfl
  | cons w rest ih =>
      intro i acc h
      have hw : fname ≠ w.name := h w (List.mem_cons_self w rest)
      simp only [computeFocusAux, if_neg hw]
      exact ih (i + 1) acc (fun x hx => h x (List.mem_cons_of_mem w hx))

theorem computeFocusAux_match (fname : String) :
    ∀ (ws : List Window) (i acc : Nat), (∃ w ∈ ws, w.name = fname) →
      ∃ j, ∃ hj : j < ws.length, (ws.get ⟨j, hj⟩).name = fname ∧
        computeFocusAux fname i acc ws = i + j := by
  intro ws
  induction ws with
  | nil => intro i acc h; simp at h
  | cons w rest ih =>
      intro i acc h
      by_cases hrest : ∃ w' ∈ rest, w'.name = fname
      · obtain ⟨j, hj, hname, heq⟩ := ih (i + 1) (if fname = w.name then i else acc) hrest
        refine ⟨j + 1, by simpa using Nat.succ_lt_succ hj, ?_, ?_⟩
        · simpa using hname
        · simp only [computeFocusAux]
          rw [heq]
          omega
      · have hw : w.name = fname := by
          rcases h with ⟨w', hw', hn⟩
          rcases List.mem_cons.mp hw' with h1 | h1
          · subst h1; exact hn
          · exact absurd ⟨w', h1, hn⟩ hrest
        refine ⟨0, by simp, by simpa using hw, ?_⟩
        have hnone : ∀ w' ∈ rest, fname ≠ w'.name := by
          intro w' hw' heq
          exact hrest ⟨w', hw', heq.symm⟩
        simp only [computeFocusAux, if_pos hw.symm]
        rw [computeFocusAux_no_match fname rest (i + 1) i hnone]
        omega

/-! ## C3: focus resolution -/

/-- C3: the selected window index is uniquely determined: when some window's
name equals `focus` (string equality, so an empty `focus` can match a window
with an empty name, and with duplicate names the loop's last assignment wins),
the computed index is the index of such a window; when no window name equals
`focus`, the index is 0.  The `select-window` operation in the trace targets
exactly that index. -/
theorem focus_resolution (s : Session) (env0 : Env) (w0 : Window)
    (rest : List Window) (hw : s.windows = w0 :: rest) :
    ((∃ w ∈ s.windows, w.name = s.focus) →
      ∃ j, ∃ hj : j < s.windows.length, (s.windows.get ⟨j, hj⟩).name = s.focus ∧
        computeFocus s = j) ∧
    ((∀ w ∈ s.windows, w.name ≠ s.focus) → computeFocus s = 0) ∧
    Event.tmux ["select-window", "-t", windowTarget s (computeFocus s)]
      ∈ (runModel s env0).1 := by
  refine ⟨?_, ?_, ?_⟩
  · intro h
    have := computeFocusAux_match s.focus s.windows 0 0 h
    simpa [computeFocus] using this
  · intro h
    exact computeFocusAux_no_match s.focus s.windows 0 0
      (fun w hw' => (h w hw').symm)
  · simp only [runModel, create, hw]
    simp [List.mem_append]

/-- Witness for `focus_resolution`: windows `editor`, `shell`, `top` with
`focus: top` select index 2, and the trace contains
`select-window -t s:2`. -/
theorem focus_resolution_witness :
    (∃ j, ∃ hj : j < (Session.mk "s" "" [] ""
        [Window.mk "editor" "vim" "" [], Window.mk "shell" "bash" "" [],
         Window.mk "top" "top" "" []] "top").windows.length,
      ((Session.mk "s" "" [] ""
        [Window.mk "editor" "vim" "" [], Window.mk "shell" "bash" "" [],
         Window.mk "top" "top" "" []] "top").windows.get ⟨j, hj⟩).name = "top" ∧
      computeFocus (Session.mk "s" "" [] ""
        [Window.mk "editor" "vim" "" [], Window.mk "shell" "bash" "" [],
         Window.mk "top" "top" "" []] "top") = j) ∧
    Event.tmux ["select-window", "-t", "s:2"]
      ∈ (runModel (Session.mk "s" "" [] ""
        [Window.mk "editor" "vim" "" [], Window.mk "shell" "bash" "" [],
         Window.mk "top" "top" "" []] "top") []).1 := by
  have h := focus_resolution (Session.mk "s" "" [] ""
    [Window.mk "editor" "vim" "" [], Window.mk "shell" "bash" "" [],
     Window.mk "top" "top" "" []] "top") [] (Window.mk "editor" "vim" "" [])
    [Window.mk "shell" "bash" "" [], Window.mk "top" "top" "" []] rfl
  refine ⟨h.1 ⟨Window.mk "top" "top" "" [], by decide, rfl⟩, ?_⟩
  have h3 := h.2.2
  have hcf : computeFocus (Session.mk "s" "" [] ""
      [Window.mk "editor" "vim" "" [], Window.mk "shell" "bash" "" [],
       Window.mk "top" "top" "" []] "top") = 2 := by decide
  rw [hcf] at h3
  exact h3

theorem runModel_eq (s : Session) (env0 : Env) (w0 : Window) (rest : List Window)
    (hw : s.windows = w0 :: rest) :
    runModel s env0 =
      ((commitEnv env0 s.environment).2 ++ setupEvents s
        ++ (Event.tmux ["new-session", "-d", "-s", s.name,
              expandEnv (commitEnv env0 s.environment).1 w0.command]
            :: s.environment.map (fun kv => Event.tmux
                ["set-environment", kv.1, expandEnv (commitEnv env0 s.environment).1 kv.2]))
        ++ windowLoop s (commitEnv env0 s.environment).1 0 s.windows
        ++ [Event.tmux ["select-window", "-t", windowTarget s (computeFocus s)],
            Event.tmux ["attach", "-t", s.name]], none) := by
  simp [runModel, create, hw]

theorem filter_sendKeysEvents (P : Event → Bool)
    (hsend : ∀ ks : List String, P (Event.tmux ("send-keys" :: ks)) = false)
    (w : Window) : List.filter P (sendKeysEvents w) = [] := by
  by_cases h : w.keystrokes = []
  · simp [sendKeysEvents, h]
  · simp [sendKeysEvents, h, hsend]

theorem filter_windowLoop_pos (s : Session) (env : Env) (P : Event → Bool)
    (hsend : ∀ ks : List String, P (Event.tmux ("send-keys" :: ks)) = false)
    (hnw : ∀ (i : Nat) (w : Window), P (Event.tmux (createWindowArgs s env i w)) = true) :
    ∀ (ws : List Window) (i : Nat),
      List.filter P (windowLoop s env (i + 1) ws)
        = (ws.enumFrom (i + 1)).map
            (fun p => Event.tmux (createWindowArgs s env p.1 p.2)) := by
  intro ws
  induction ws with
  | nil => intro i; rfl
  | cons w rest ih =>
      intro i
      simp only [windowLoop, Nat.succ_pos, if_pos, List.enumFrom, List.map_cons,
        List.filter_append, List.filter_cons]
      rw [filter_sendKeysEvents P hsend w]
      simp [hnw, ih (i + 1)]

theorem filter_windowLoop_nil (s : Session) (env : Env) (P : Event → Bool)
    (hsend : ∀ ks : List String, P (Event.tmux ("send-keys" :: ks)) = false)
    (hnw : ∀ (i : Nat) (w : Window), P (Event.tmux (createWindowArgs s env i w)) = false) :
    ∀ (ws : List Window) (i : Nat), List.filter P (windowLoop s env i ws) = [] := by
  intro ws
  induction ws with
  | nil => intro i; rfl
  | cons w rest ih =>
      intro i
      simp only [windowLoop, List.filter_append]
      rw [filter_sendKeysEvents P hsend w, ih (i + 1)]
      by_cases h : i > 0
      · simp [h, hnw]
      · simp [h]

theorem filter_commitEnv_events (P : Event → Bool)
    (hset : ∀ k v : String, P (Event.setenv k v) = false)
    (env : Env) (entries : List (String × String)) :
    List.filter P (commitEnv env entries).2 = [] := by
  rw [List.filter_eq_nil_iff]
  intro e he
  obtain ⟨k, v, rfl⟩ := commitEnv_snd_setenv entries env e he
  simp [hset]

theorem filter_setEnvEvents (P : Event → Bool)
    (h : ∀ k v : String, P (Event.tmux ["set-environment", k, v]) = false)
    (env : Env) (entries : List (String × String)) :
    List.filter P (entries.map (fun kv =>
      Event.tmux ["set-environment", kv.1, expandEnv env kv.2])) = [] := by
  rw [List.filter_eq_nil_iff]
  intro e he
  obtain ⟨kv, _, rfl⟩ := List.mem_map.mp he
  simp [h]

theorem filter_windowLoop_zero_pos (s : Session) (env : Env) (P : Event → Bool)
    (hsend : ∀ ks : List String, P (Event.tmux ("send-keys" :: ks)) = false)
    (hnw : ∀ (i : Nat) (w : Window), P (Event.tmux (createWindowArgs s env i w)) = true)
    (w0 : Window) (rest : List Window) :
    List.filter P (windowLoop s env 0 (w0 :: rest))
      = (rest.enumFrom 1).map (fun p => Event.tmux (createWindowArgs s env p.1 p.2)) := by
  simp only [windowLoop, gt_iff_lt, Nat.lt_irrefl, if_false, List.nil_append,
    List.filter_append]
  rw [filter_sendKeysEvents P hsend w0]
  simpa using filter_windowLoop_pos s env P hsend hnw rest 0

theorem filter_setupEvents (P : Event → Bool)
    (hspawn : ∀ c : String, P (Event.spawnScript c) = false) (s : Session) :
    List.filter P (setupEvents s) = [] := by
  by_cases h : s.setupScript = ""
  · simp [setupEvents, h]
  · simp [setupEvents, h, hspawn]

/-! ## C1: the create-session / create-window sequence -/

/-- C1: on a specification with at least one window, the success-path trace
contains exactly one `new-session` invocation — running window 0's expanded
command — and exactly `len(windows) - 1` `new-window` invocations, one for
each window at index `i ≥ 1`; restricted to these two kinds, the trace is the
`new-session` call followed by the `new-window` calls in ascending index
order matching the order of the `windows` sequence. -/
theorem materialization_command_sequence (s : Session) (env0 : Env)
    (w0 : Window) (rest : List Window) (hw : s.windows = w0 :: rest) :
    (runModel s env0).2 = none ∧
    List.filter (fun e => isCmd "new-session" e || isCmd "new-window" e)
        (runModel s env0).1
      = Event.tmux ["new-session", "-d", "-s", s.name,
          expandEnv (commitEnv env0 s.environment).1 w0.command]
        :: (rest.enumFrom 1).map (fun p =>
            Event.tmux (createWindowArgs s (commitEnv env0 s.environment).1 p.1 p.2)) ∧
    (List.filter (fun e => isCmd "new-session" e) (runModel s env0).1).length = 1 ∧
    (List.filter (fun e => isCmd "new-window" e) (runModel s env0).1).length
      = s.windows.length - 1 := by
  have hrm := runModel_eq s env0 w0 rest hw
  refine ⟨by rw [hrm], ?_, ?_, ?_⟩
  · rw [hrm]
    simp only [hw, List.filter_append, List.filter_cons]
    rw [filter_commitEnv_events _ (fun _ _ => rfl) env0 s.environment,
      filter_setupEvents _ (fun _ => rfl) s,
      filter_setEnvEvents _ (by intro k v; simp [isCmd]) _ s.environment,
      filter_windowLoop_zero_pos s _ _ (by intro ks; simp [isCmd])
        (by intro i w; simp [isCmd, createWindowArgs]) w0 rest]
    simp [isCmd]
  · rw [hrm]
    simp only [hw, List.filter_append, List.filter_cons]
    rw [filter_commitEnv_events _ (fun _ _ => rfl) env0 s.environment,
      filter_setupEvents _ (fun _ => rfl) s,
      filter_setEnvEvents _ (by intro k v; simp [isCmd]) _ s.environment,
      filter_windowLoop_nil s _ _ (by intro ks; simp [isCmd])
        (by intro i w; simp [isCmd, createWindowArgs]) (w0 :: rest) 0]
    simp [isCmd]
  · rw [hrm]
    simp only [hw, List.filter_append, List.filter_cons]
    rw [filter_commitEnv_events _ (fun _ _ => rfl) env0 s.environment,
      filter_setupEvents _ (fun _ => rfl) s,
      filter_setEnvEvents _ (by intro k v; simp [isCmd]) _ s.environment,
      filter_windowLoop_zero_pos s _ _ (by intro ks; simp [isCmd])
        (by intro i w; simp [isCmd, createWindowArgs]) w0 rest]
    simp [isCmd, List.enumFrom_length]

/-- Concrete two-window session used to witness the materialization
sequence. -/
def c1sess : Session :=
  Session.mk "s" "" [] ""
    [Window.mk "a" "vim" "" [], Window.mk "b" "irb" "" []] ""

/-- Witness for `materialization_command_sequence`: two windows produce one
`new-session` running `vim` followed by one `new-window` at target `s:1`
running `irb`. -/
theorem materialization_command_sequence_witness :
    (runModel c1sess []).2 = none ∧
    List.filter (fun e => isCmd "new-session" e || isCmd "new-window" e)
        (runModel c1sess []).1
      = [Event.tmux ["new-session", "-d", "-s", "s", "vim"],
         Event.tmux ["new-window", "-d", "-t", "s:1", "-c", "", "irb"]] ∧
    (List.filter (fun e => isCmd "new-session" e) (runModel c1sess []).1).length = 1 ∧
    (List.filter (fun e => isCmd "new-window" e) (runModel c1sess []).1).length = 1 := by
  have h := materialization_command_sequence c1sess [] (Window.mk "a" "vim" "" [])
    [Window.mk "b" "irb" "" []] rfl
  refine ⟨h.1, ?_, h.2.2.1, by simpa using h.2.2.2⟩
  rw [h.2.1]
  simp [c1sess, commitEnv, expandEnv, expandLoop, getShellName, getenvChars,
    isShellSpecialVar, isAlphaNum, lookupEnv, createWindowArgs, windowTarget,
    List.enumFrom]
  decide

/-! ## C2: zero windows -/

/-- Concrete zero-window session with a non-empty setup script. -/
def c2sess : Session := Session.mk "s" "echo hi" [] "" [] ""

/-- Counterexample to C2 as stated: on a zero-window specification whose
`setupScript` is non-empty, `run` does fail with the no-windows error, but the
setup-script subprocess has already been spawned by then — `run` calls
`session.setupScript()` before `session.create()` performs the window check,
so the failure does not precede every external process. -/
theorem no_windows_counterexample :
    (runModel c2sess []).2 = some noWindowsMsg ∧
    Event.spawnScript "echo hi" ∈ (runModel c2sess []).1 := by
  decide

/-- C2 as amended: on a zero-window specification, materialization fails with
the no-windows error and no multiplexer (`tmux`) command is ever issued; but
the failure does not precede every external process — when `setupScript` is
non-empty, the setup-script subprocess is spawned before the window check. -/
theorem no_windows_amended (s : Session) (env0 : Env) (hw : s.windows = []) :
    (runModel s env0).2 = some noWindowsMsg ∧
    (∀ args : List String, Event.tmux args ∉ (runModel s env0).1) ∧
    (s.setupScript ≠ "" →
      Event.spawnScript (goTrimSpace s.setupScript) ∈ (runModel s env0).1) := by
  have hrun : runModel s env0 =
      ((commitEnv env0 s.environment).2 ++ setupEvents s, some noWindowsMsg) := by
    simp [runModel, create, hw]
  refine ⟨by rw [hrun], ?_, ?_⟩
  · intro args hmem
    rw [hrun] at hmem
    rcases List.mem_append.mp hmem with h | h
    · obtain ⟨k, v, hkv⟩ := commitEnv_snd_setenv s.environment env0 _ h
      exact Event.noConfusion hkv
    · by_cases hss : s.setupScript = ""
      · simp [setupEvents, hss] at h
      · simp [setupEvents, hss] at h
  · intro hss
    rw [hrun]
    simp [setupEvents, hss]

/-- Witness for `no_windows_amended` at the concrete zero-window session. -/
theorem no_windows_amended_witness :
    (runModel c2sess []).2 = some noWindowsMsg ∧
    Event.tmux ["new-session", "-d", "-s", "s", ""] ∉ (runModel c2sess []).1 ∧
    Event.spawnScript (goTrimSpace "echo hi") ∈ (runModel c2sess []).1 := by
  have h := no_windows_amended c2sess [] rfl
  exact ⟨h.1, h.2.1 ["new-session", "-d", "-s", "s", ""], h.2.2 (by decide)⟩

theorem mem_windowLoop (s : Session) (env : Env) :
    ∀ (ws : List Window) (i : Nat) (e : Event), e ∈ windowLoop s env i ws →
      (∃ j w, 0 < j ∧ e = Event.tmux (createWindowArgs s env j w)) ∨
      (∃ w ∈ ws, e = Event.tmux ("send-keys" :: w.keystrokes)) := by
  intro ws
  induction ws with
  | nil => intro i e h; simp [windowLoop] at h
  | cons w rest ih =>
      intro i e h
      simp only [windowLoop, List.mem_append] at h
      rcases h with (h | h) | h
      · by_cases hi : i > 0
        · rw [if_pos hi] at h
          simp only [List.mem_singleton] at h
          exact Or.inl ⟨i, w, hi, h⟩
        · rw [if_neg hi] at h
          simp at h
      · unfold sendKeysEvents at h
        by_cases hk : w.keystrokes = []
        · simp [hk] at h
        · simp only [if_neg hk, List.mem_singleton] at h
          exact Or.inr ⟨w, List.mem_cons_self w rest, h⟩
      · rcases ih (i + 1) e h with h1 | ⟨w', hw', he⟩
        · exact Or.inl h1
        · exact Or.inr ⟨w', List.mem_cons_of_mem w hw', he⟩

theorem trace_shapes (s : Session) (env0 : Env) (w0 : Window) (rest : List Window)
    (hw : s.windows = w0 :: rest) :
    ∀ e ∈ (runModel s env0).1,
      (∃ k v, e = Event.setenv k v) ∨
      e = Event.spawnScript (goTrimSpace s.setupScript) ∨
      e = Event.tmux ["new-session", "-d", "-s", s.name,
            expandEnv (commitEnv env0 s.environment).1 w0.command] ∨
      (∃ kv ∈ s.environment, e = Event.tmux
        ["set-environment", kv.1, expandEnv (commitEnv env0 s.environment).1 kv.2]) ∨
      (∃ j w, 0 < j ∧ e = Event.tmux
        (createWindowArgs s (commitEnv env0 s.environment).1 j w)) ∨
      (∃ w ∈ s.windows, e = Event.tmux ("send-keys" :: w.keystrokes)) ∨
      e = Event.tmux ["select-window", "-t", windowTarget s (computeFocus s)] ∨
      e = Event.tmux ["attach", "-t", s.name] := by
  intro e he
  simp only [runModel_eq s env0 w0 rest hw] at he
  simp only [List.mem_append, List.mem_cons, List.mem_singleton,
    List.mem_map, List.not_mem_nil, or_false] at he
  rcases he with (((h | h) | h | h) | h) | h | h
  · exact Or.inl (commitEnv_snd_setenv s.environment env0 e h)
  · by_cases hss : s.setupScript = ""
    · simp [setupEvents, hss] at h
    · simp only [setupEvents, if_neg hss, List.mem_singleton] at h
      exact Or.inr (Or.inl h)
  · exact Or.inr (Or.inr (Or.inl h))
  · obtain ⟨kv, hkv, rfl⟩ := h
    exact Or.inr (Or.inr (Or.inr (Or.inl ⟨kv, hkv, rfl⟩)))
  · rcases mem_windowLoop s _ s.windows 0 e h with h1 | h1
    · exact Or.inr (Or.inr (Or.inr (Or.inr (Or.inl h1))))
    · exact Or.inr (Or.inr (Or.inr (Or.inr (Or.inr (Or.inl h1)))))
  · exact Or.inr (Or.inr (Or.inr (Or.inr (Or.inr (Or.inr (Or.inl h))))))
  · exact Or.inr (Or.inr (Or.inr (Or.inr (Or.inr (Or.inr (Or.inr h))))))

/-! ## C4: positional addressing of operations after create-session -/

/-- The event is a `tmux` invocation carrying some argument in the addressing
syntax `<sessionName>:<windowIndex>`. -/
def carriesTarget (s : Session) (e : Event) : Prop :=
  ∃ args a i, e = Event.tmux args ∧ a ∈ args ∧ a = windowTarget s i

theorem windowTarget_data (s : Session) (i : Nat) :
    (windowTarget s i).data = s.name.data ++ ':' :: (toString i).data := by
  show (s.name ++ ":" ++ toString i).data = _
  have h1 : (s.name ++ ":" ++ toString i).data
      = (s.name ++ ":").data ++ (toString i).data := rfl
  have h2 : (s.name ++ ":").data = s.name.data ++ [':'] := rfl
  simp [h1, h2]

/-- Concrete one-window session with one environment entry. -/
def c4sess : Session := Session.mk "s" "" [("K", "v")] "" [Window.mk "w" "c" "" []] ""

/-- Counterexample to C4 as stated: the `set-environment` operation issued
after create-session carries no target argument at all — main.go passes only
the key and the expanded value — so it does not carry a
`<sessionName>:<windowIndex>` target. -/
theorem addressing_counterexample :
    Event.tmux ["set-environment", "K", "v"] ∈ (runModel c4sess []).1 ∧
    ¬ carriesTarget c4sess (Event.tmux ["set-environment", "K", "v"]) := by
  constructor
  · have htr : (runModel c4sess []).1 =
        [Event.setenv "K" "v",
         Event.tmux ["new-session", "-d", "-s", "s", "c"],
         Event.tmux ["set-environment", "K", "v"],
         Event.tmux ["select-window", "-t", "s:0"],
         Event.tmux ["attach", "-t", "s"]] := by
      simp [c4sess, runModel, create, commitEnv, setupEvents, windowLoop,
        sendKeysEvents, computeFocus, computeFocusAux, windowTarget, expandEnv,
        expandLoop, getShellName, getenvChars, isShellSpecialVar, isAlphaNum,
        lookupEnv]
      decide
    rw [htr]
    decide
  · rintro ⟨args, a, i, heq, hmem, ha⟩
    have hargs : args = ["set-environment", "K", "v"] :=
      (Event.tmux.injEq _ _).mp heq.symm
    subst hargs
    have hd := congrArg String.data ha
    rw [windowTarget_data] at hd
    have hname : c4sess.name.data = ['s'] := rfl
    rw [hname] at hd
    rcases List.mem_cons.mp hmem with h1 | h1
    · subst h1; simp at hd
    rcases List.mem_cons.mp h1 with h2 | h2
    · subst h2; simp at hd
    rcases List.mem_cons.mp h2 with h3 | h3
    · subst h3; simp at hd
    · simp at h3

/-- C4 as amended: `new-window` and `select-window` do carry a `-t` target in
the `<sessionName>:<windowIndex>` syntax, but `set-environment` (key and
expanded value only) and `send-keys` (the keystroke tokens only) are issued
with no target argument and operate on the multiplexer's implicit current
session and window. -/
theorem addressing_amended (s : Session) (env0 : Env) (w0 : Window)
    (rest : List Window) (hw : s.windows = w0 :: rest) :
    (∀ e ∈ (runModel s env0).1, isCmd "set-environment" e = true →
      ∃ kv ∈ s.environment, e = Event.tmux
        ["set-environment", kv.1, expandEnv (commitEnv env0 s.environment).1 kv.2]) ∧
    (∀ e ∈ (runModel s env0).1, isCmd "send-keys" e = true →
      ∃ w ∈ s.windows, e = Event.tmux ("send-keys" :: w.keystrokes)) ∧
    (∀ e ∈ (runModel s env0).1, isCmd "new-window" e = true →
      ∃ j w, 0 < j ∧ e = Event.tmux
        (createWindowArgs s (commitEnv env0 s.environment).1 j w)) ∧
    (∀ (env : Env) (i : Nat) (w : Window),
      (createWindowArgs s env i w).take 4 = ["new-window", "-d", "-t", windowTarget s i]) ∧
    (∀ e ∈ (runModel s env0).1, isCmd "select-window" e = true →
      e = Event.tmux ["select-window", "-t", windowTarget s (computeFocus s)]) := by
  refine ⟨?_, ?_, ?_, fun env i w => rfl, ?_⟩
  · intro e he hc
    rcases trace_shapes s env0 w0 rest hw e he with
      ⟨k, v, rfl⟩ | rfl | rfl | ⟨kv, hkv, rfl⟩ | ⟨j, w, hj, rfl⟩ | ⟨w, hmem, rfl⟩ | rfl | rfl
    · simp [isCmd] at hc
    · simp [isCmd] at hc
    · simp [isCmd] at hc
    · exact ⟨kv, hkv, rfl⟩
    · simp [isCmd, createWindowArgs] at hc
    · simp [isCmd] at hc
    · simp [isCmd] at hc
    · simp [isCmd] at hc
  · intro e he hc
    rcases trace_shapes s env0 w0 rest hw e he with
      ⟨k, v, rfl⟩ | rfl | rfl | ⟨kv, hkv, rfl⟩ | ⟨j, w, hj, rfl⟩ | ⟨w, hmem, rfl⟩ | rfl | rfl
    · simp [isCmd] at hc
    · simp [isCmd] at hc
    · simp [isCmd] at hc
    · simp [isCmd] at hc
    · simp [isCmd, createWindowArgs] at hc
    · exact ⟨w, hmem, rfl⟩
    · simp [isCmd] at hc
    · simp [isCmd] at hc
  · intro e he hc
    rcases trace_shapes s env0 w0 rest hw e he with
      ⟨k, v, rfl⟩ | rfl | rfl | ⟨kv, hkv, rfl⟩ | ⟨j, w, hj, rfl⟩ | ⟨w, hmem, rfl⟩ | rfl | rfl
    · simp [isCmd] at hc
    · simp [isCmd] at hc
    · simp [isCmd] at hc
    · simp [isCmd] at hc
    · exact ⟨j, w, hj, rfl⟩
    · simp [isCmd] at hc
    · simp [isCmd] at hc
    · simp [isCmd] at hc
  · intro e he hc
    rcases trace_shapes s env0 w0 rest hw e he with
      ⟨k, v, rfl⟩ | rfl | rfl | ⟨kv, hkv, rfl⟩ | ⟨j, w, hj, rfl⟩ | ⟨w, hmem, rfl⟩ | rfl | rfl
    · simp [isCmd] at hc
    · simp [isCmd] at hc
    · simp [isCmd] at hc
    · simp [isCmd] at hc
    · simp [isCmd, createWindowArgs] at hc
    · simp [isCmd] at hc
    · rfl
    · simp [isCmd] at hc

/-- Witness for `addressing_amended`: in the two-window session every
`new-window` call targets `s:1` and `select-window` targets `s:0`. -/
theorem addressing_amended_witness :
    (∀ (env : Env) (i : Nat) (w : Window),
      (createWindowArgs c1sess env i w).take 4
        = ["new-window", "-d", "-t", windowTarget c1sess i]) ∧
    (∀ e ∈ (runModel c1sess []).1, isCmd "select-window" e = true →
      e = Event.tmux ["select-window", "-t", windowTarget c1sess (computeFocus c1sess)]) := by
  have h := addressing_amended c1sess [] (Window.mk "a" "vim" "" [])
    [Window.mk "b" "irb" "" []] rfl
  exact ⟨h.2.2.2.1, h.2.2.2.2⟩

/-! ## C6: setup-script temporary-file lifecycle -/

/-- C6: for a non-empty `setupScript`, once the temporary file has been
created the runner writes the (trimmed) script to it, marks it executable and
runs it, and the deferred `os.Remove` leaves the file non-existent after the
call returns on every outcome — success, write failure, chmod failure, and a
non-zero script exit; when even the temporary-file creation fails, no file
was created at all. -/
theorem setup_script_lifecycle (script : String) (writeOk chmodOk runOk : Bool)
    (h : script ≠ "") :
    tempFileExists (setupScriptRun script true writeOk chmodOk runOk).1 = false ∧
    FsEvent.createTemp ∈ (setupScriptRun script true writeOk chmodOk runOk).1 ∧
    FsEvent.removeTemp ∈ (setupScriptRun script true writeOk chmodOk runOk).1 ∧
    (writeOk = true →
      FsEvent.write (goTrimSpace script) ∈ (setupScriptRun script true writeOk chmodOk runOk).1) ∧
    (writeOk = true → chmodOk = true →
      FsEvent.chmod ∈ (setupScriptRun script true writeOk chmodOk runOk).1 ∧
      FsEvent.runProc ∈ (setupScriptRun script true writeOk chmodOk runOk).1) ∧
    (setupScriptRun script false writeOk chmodOk runOk).1 = [] := by
  cases writeOk <;> cases chmodOk <;> cases runOk <;>
    simp [setupScriptRun, h, tempFileExists]

/-- Witness for `setup_script_lifecycle`: with a chmod failure the events
still end in the deferred removal and the file does not survive the call. -/
theorem setup_script_lifecycle_witness :
    tempFileExists (setupScriptRun "echo hi" true true false true).1 = false ∧
    FsEvent.removeTemp ∈ (setupScriptRun "echo hi" true true false true).1 :=
  ⟨(setup_script_lifecycle "echo hi" true false true (by decide)).1,
   (setup_script_lifecycle "echo hi" true false true (by decide)).2.2.1⟩

/-! ## C9: the written content is the TrimSpace of the field -/

/-- C9: the content the runner writes to the temporary file is
`strings.TrimSpace(setupScript)` — the field with leading and trailing white
space stripped — and nothing else is ever written. -/
theorem setup_script_trimmed (script : String) (chmodOk runOk : Bool)
    (h : script ≠ "") :
    FsEvent.write (goTrimSpace script) ∈ (setupScriptRun script true true chmodOk runOk).1 ∧
    ∀ c : String, FsEvent.write c ∈ (setupScriptRun script true true chmodOk runOk).1 →
      c = goTrimSpace script := by
  cases chmodOk <;> cases runOk <;>
    (refine ⟨by simp [setupScriptRun, h], ?_⟩
     intro c hc
     simp [setupScriptRun, h] at hc
     exact hc)

/-- Witness for `setup_script_trimmed`: the leading newline a YAML block
scalar introduces before the `#!` line (and the trailing newline) are removed
before the file is executed, so the written content differs from the field. -/
theorem setup_script_trimmed_witness :
    FsEvent.write "#!/bin/bash\nmkdir -p x"
      ∈ (setupScriptRun "\n#!/bin/bash\nmkdir -p x\n" true true true true).1 ∧
    goTrimSpace "\n#!/bin/bash\nmkdir -p x\n" ≠ "\n#!/bin/bash\nmkdir -p x\n" := by
  have h := setup_script_trimmed "\n#!/bin/bash\nmkdir -p x\n" true true (by decide)
  have ht : goTrimSpace "\n#!/bin/bash\nmkdir -p x\n" = "#!/bin/bash\nmkdir -p x" := by
    decide
  exact ⟨by rw [← ht]; exact h.1, by decide⟩

/-! ## C7: the interactive-shell default for empty window commands -/

/-- Concrete session whose single window has an empty `command`. -/
def c7sess : Session := Session.mk "s" "" [] "" [Window.mk "w" "" "" []] ""

/-- Counterexample to C7 as stated: src/main.go's `newSession` performs no
defaulting after decoding, so the window's empty `command` reaches
materialization as the empty string — the `new-session` invocation runs `""`,
not an interactive-shell default such as `"bash"`. -/
theorem window_default_counterexample :
    (runModel (newSessionMain c7sess) []).1 =
      [Event.tmux ["new-session", "-d", "-s", "s", ""],
       Event.tmux ["select-window", "-t", "s:0"],
       Event.tmux ["attach", "-t", "s"]] ∧
    (newSessionMain c7sess).windows = [Window.mk "w" "" "" []] := by
  constructor
  · simp [c7sess, newSessionMain, runModel, create, commitEnv, setupEvents,
      windowLoop, sendKeysEvents, computeFocus, computeFocusAux, windowTarget,
      expandEnv, expandLoop, getShellName, getenvChars, lookupEnv]
    decide
  · rfl

/-- C7 as amended: only the part_000 variant's `newSession` assigns the
interactive-shell default — after its decode every window with an empty
`command` carries `"bash"`, in place before any expansion or materialization —
while src/main.go's `newSession` leaves every window unchanged and an empty
command is materialized as-is. -/
theorem window_default_amended (s : Session) (i : Nat) :
    (newSessionPart s).windows[i]? = (s.windows[i]?).map
      (fun w => if w.command = "" then { w with command := "bash" } else w) ∧
    (newSessionMain s).windows[i]? = s.windows[i]? := by
  constructor
  · simp [newSessionPart, fillDefaults, List.getElem?_map]
  · rfl

/-! ## C8: config-file resolution -/

/-- Abstract file system in which `foo` is an existing directory and nothing
else exists. -/
def c8fs : Fs := Fs.mk (fun p => if p = "foo" then StatRes.found true else StatRes.notExist)

/-- Counterexample to C8 as stated: `foo` is a directory, not a regular file,
so by the claim the loader should consult the configuration directory (and
fail, since the resolved file does not exist); src/main.go's `locateSession`
only checks that `os.Stat` succeeds and returns the directory path `foo`
directly. -/
theorem locate_session_counterexample :
    locateSessionMain c8fs "/xdg" "/home" true "foo" = Except.ok "foo" ∧
    c8fs.stat "foo" = StatRes.found true ∧
    c8fs.stat (configPath "/xdg" "/home" "foo") = StatRes.notExist := by
  refine ⟨rfl, rfl, by decide⟩

/-- C8 as amended: an argument naming any existing file-system object is used
directly by src/main.go (the part_000 variant additionally requires a
non-directory, sending a directory argument to the config-directory lookup);
otherwise both variants resolve `<configDir>/tmuxg/<name>.yaml` — where the
config directory is `$XDG_CONFIG_HOME`, or `$HOME/.config` when
`$XDG_CONFIG_HOME` is empty — succeeding exactly when that file exists. -/
theorem locate_session_amended (fs : Fs) (xdg home name : String) :
    (fs.stat name = StatRes.found false →
      locateSessionMain fs xdg home true name = Except.ok name ∧
      locateSessionPart fs xdg home true name = Except.ok name) ∧
    (fs.stat name = StatRes.found true →
      locateSessionMain fs xdg home true name = Except.ok name ∧
      locateSessionPart fs xdg home true name = locateInConfigDir fs xdg home true name) ∧
    (fs.stat name = StatRes.notExist →
      locateSessionMain fs xdg home true name = locateInConfigDir fs xdg home true name ∧
      locateSessionPart fs xdg home true name = locateInConfigDir fs xdg home true name) ∧
    (∀ d : Bool, fs.stat (configPath xdg home name) = StatRes.found d →
      locateInConfigDir fs xdg home true name = Except.ok (configPath xdg home name)) ∧
    (fs.stat (configPath xdg home name) = StatRes.notExist →
      locateInConfigDir fs xdg home true name = Except.error LocateErr.notFound) ∧
    (xdg = "" → configPath xdg home name
      = joinPath (joinPath (joinPath home ".config") "tmuxg") (name ++ ".yaml")) ∧
    (xdg ≠ "" → configPath xdg home name
      = joinPath (joinPath xdg "tmuxg") (name ++ ".yaml")) := by
  refine ⟨?_, ?_, ?_, ?_, ?_, ?_, ?_⟩
  · intro h
    constructor <;> simp [locateSessionMain, locateSessionPart, h]
  · intro h
    constructor <;> simp [locateSessionMain, locateSessionPart, h]
  · intro h
    constructor <;> simp [locateSessionMain, locateSessionPart, h]
  · intro d h
    simp [locateInConfigDir, h]
  · intro h
    simp [locateInConfigDir, h]
  · intro h
    simp [configPath, h]
  · intro h
    simp [configPath, h]

/-- Abstract file system in which `conf.yaml` is an existing regular file. -/
def c8fsw : Fs :=
  Fs.mk (fun p => if p = "conf.yaml" then StatRes.found false else StatRes.notExist)

/-- Witness for `locate_session_amended`: an existing regular-file argument is
used directly by both variants. -/
theorem locate_session_amended_witness :
    locateSessionMain c8fsw "/x" "/h" true "conf.yaml" = Except.ok "conf.yaml" ∧
    locateSessionPart c8fsw "/x" "/h" true "conf.yaml" = Except.ok "conf.yaml" :=
  (locate_session_amended c8fsw "/x" "/h" "conf.yaml").1 (by decide)

/-! ## C10: expansion of an unset variable -/

/-- C10: during variable expansion (Go `os.ExpandEnv`, used on `environment`
values, `cwd`, and `command`), a reference `$name` to a variable that is unset
in the process environment expands to the empty string — it is not an error
and it is not left verbatim in the output.  `name` here is any non-empty
alphanumeric/underscore identifier whose first character is not one of the
shell special variables. -/
theorem unset_variable_expands_empty (env : Env) (c0 : Char) (cs : List Char)
    (halnum : ∀ c ∈ c0 :: cs, isAlphaNum c = true)
    (hspec : isShellSpecialVar c0 = false)
    (hunset : lookupEnv env (String.mk (c0 :: cs)) = none) :
    expandEnv env (String.mk ('$' :: c0 :: cs)) = "" ∧
      expandEnv env (String.mk ('$' :: c0 :: cs)) ≠ String.mk ('$' :: c0 :: cs) := by
  have hbrace : c0 ≠ '{' := by
    intro h
    subst h
    have := halnum '{' (List.mem_cons_self _ _)
    simp [isAlphaNum] at this
  have htw : (c0 :: cs).takeWhile isAlphaNum = c0 :: cs :=
    List.takeWhile_eq_self_iff.mpr (by intro x hx; exact halnum x hx)
  have hname : getShellName (c0 :: cs) = (c0 :: cs, (c0 :: cs).length) := by
    simp [getShellName, hbrace, hspec, htw]
  have hexp : expandLoop env ('$' :: c0 :: cs) = [] := by
    rw [expandLoop]
    simp [hname, getenvChars, hunset, List.drop_length, expandLoop]
  constructor
  · simp [expandEnv, hexp]
  · simp [expandEnv, hexp]
    intro h
    have := congrArg String.data h
    simp at this

/-- Witness for `unset_variable_expands_empty`: `$FOO` with `FOO` unset in an
empty environment expands to `""`. -/
theorem unset_variable_expands_empty_witness :
    expandEnv [] (String.mk ['$', 'F', 'O', 'O']) = "" ∧
      expandEnv [] (String.mk ['$', 'F', 'O', 'O']) ≠ String.mk ['$', 'F', 'O', 'O'] :=
  unset_variable_expands_empty [] 'F' ['O', 'O'] (by decide) (by decide) (by decide)

end Tmuxg
